import Mathlib

/-!
# Verification of the commitgen prompt-construction and generation pipeline

A shallow embedding of the Go sources of `hoanghonghuy/commitgen`:
the attachment builder (`internal/vscodeprompt/attachment.go`), the prompt
assembler and code-block extractor (`internal/vscodeprompt/prompt.go`),
the per-backend message translation of the four provider adapters
(`internal/openai`, `internal/ollama`, `internal/anthropic`,
`internal/gemini`), and the retry/regeneration control loop
(`internal/app/run.go`).

Strings are modelled as `List Char` (`GoStr`); the Go standard-library
string functions used by the code are reimplemented here with the same
semantics on that model.
-/

set_option maxRecDepth 20000

/-- Strings of the Go program, modelled as lists of characters. -/
abbrev GoStr := List Char

/-- Convert a Lean string literal to the model. -/
def gs (s : String) : GoStr := s.data

/-- `strings.HasPrefix`: `List.isPrefixOf` on the character list. -/
def goStartsWith (s pre : GoStr) : Bool := pre.isPrefixOf s

/-- `strings.Contains(s, sub)`: some suffix of `s` starts with `sub`.
(Go returns `true` for the empty substring, as does this definition.) -/
def goContains (s sub : GoStr) : Bool :=
  match s with
  | [] => sub.isEmpty
  | _ :: rest => sub.isPrefixOf s || goContains rest sub

/-- The whitespace class of Go's `unicode.IsSpace` restricted to the
characters that can actually occur here: space, \t, \n, \v, \f, \r. -/
def goIsSpace (c : Char) : Bool :=
  c = ' ' || c = '\t' || c = '\n' || c = '\x0b' || c = '\x0c' || c = '\r'

/-- `strings.TrimSpace`: drop leading and trailing whitespace. -/
def goTrimSpace (s : GoStr) : GoStr :=
  ((s.dropWhile goIsSpace).reverse.dropWhile goIsSpace).reverse

/-- `strings.TrimRight(s, cutset)`: drop all trailing characters that are
in `cutset`.  Defined by recursion on the front of the list: a character
is kept unless it is in the cutset and everything after it is dropped. -/
def goTrimRight (s : GoStr) (cutset : List Char) : GoStr :=
  match s with
  | [] => []
  | c :: rest =>
    let t := goTrimRight rest cutset
    if cutset.contains c ∧ t = [] then [] else c :: t

/-- `strings.TrimRight(s, "\r")`, the trailing carriage-return stripping
applied to every kept line of an attachment. -/
def trimCR (s : GoStr) : GoStr := goTrimRight s ['\r']

/-- `strings.ReplaceAll(content, "\r\n", "\n")` (leftmost, non-overlapping). -/
def replCRNL : GoStr → GoStr
  | [] => []
  | [c] => [c]
  | c₁ :: c₂ :: rest =>
    if c₁ = '\r' ∧ c₂ = '\n' then '\n' :: replCRNL rest
    else c₁ :: replCRNL (c₂ :: rest)

/-- Prepend a character to the first piece of a split result. -/
def consHead (c : Char) : List GoStr → List GoStr
  | [] => [[c]]
  | h :: t => (c :: h) :: t

/-- `strings.Split(s, "\n")`: always returns at least one piece; the
empty string yields `[[]]` (one empty line), exactly as in Go. -/
def splitNl : GoStr → List GoStr
  | [] => [[]]
  | c :: rest => if c = '\n' then [] :: splitNl rest else consHead c (splitNl rest)

/-! ## Decimal rendering, padding, paths -/

/-- Decimal digits of a natural number (`fmt.Sprintf("%d", n)`), with fuel. -/
def natToStrAux : Nat → Nat → GoStr
  | 0, _ => []
  | fuel + 1, n =>
    if n < 10 then [Char.ofNat (48 + n)]
    else natToStrAux fuel (n / 10) ++ [Char.ofNat (48 + n % 10)]

/-- `fmt.Sprintf("%d", n)`. -/
def natToStr (n : Nat) : GoStr := natToStrAux (n + 1) n

/-- Right-alignment in a field of width `w` (`fmt.Sprintf("%*d", w, _)`). -/
def padLeftSpaces (w : Nat) (s : GoStr) : GoStr :=
  List.replicate (w - s.length) ' ' ++ s

/-- ASCII lower-casing (`strings.ToLower` on the extensions used here). -/
def goToLower (s : GoStr) : GoStr :=
  s.map fun c => if 'A' ≤ c ∧ c ≤ 'Z' then Char.ofNat (c.toNat + 32) else c

/-- `filepath.Base`: the last element of the path after dropping trailing
slashes; `"."` for the empty path, `"/"` for all-slash paths. -/
def goBase (p : GoStr) : GoStr :=
  if p = [] then gs "." else
  let q := goTrimRight p ['/']
  if q = [] then gs "/" else (q.reverse.takeWhile (· ≠ '/')).reverse

/-- `filepath.Ext`: the suffix beginning at the final dot in the final
slash-separated element; empty if there is no dot. -/
def goExt (p : GoStr) : GoStr :=
  let revLast := p.reverse.takeWhile (· ≠ '/')
  if revLast.contains '.' then '.' :: (revLast.takeWhile (· ≠ '.')).reverse
  else []

/-- `filepath.Join(a, b)` for the non-degenerate shapes used here. -/
def goJoin (a b : GoStr) : GoStr := a ++ gs "/" ++ b

/-- The `{` character (written via its code point). -/
def lbrace : Char := Char.ofNat 123

/-- The `}` character (written via its code point). -/
def rbrace : Char := Char.ofNat 125

/-! ## The Go map `kept map[int]string`

Modelled as an association list with unique keys: assigning to an existing
key overwrites its value in place, assigning a fresh key appends.  The
output of the attachment builder only depends on this list through its key
set and the value at each key, matching Go map semantics (the builder
sorts the collected keys before rendering). -/

/-- Association-list model of `map[int]string`. -/
abbrev MapKS := List (Nat × GoStr)

/-- Go map assignment `m[k] = v`. -/
def mapInsert (m : MapKS) (k : Nat) (v : GoStr) : MapKS :=
  if m.any (fun p => p.1 = k) then m.map (fun p => if p.1 = k then (k, v) else p)
  else m ++ [(k, v)]

/-- Go map read `m[k]` (`none` when the key is absent; Go yields `""`). -/
def mapLookup : MapKS → Nat → Option GoStr
  | [], _ => none
  | (k, v) :: rest, key => if key = k then some v else mapLookup rest key

/-- The key set of the map, in insertion order (Go iterates in an
unspecified order and the builder sorts, so only the set matters). -/
def mapKeys (m : MapKS) : List Nat := m.map Prod.fst

/-- `sortInts` from `attachment.go`: an insertion sort over the keys. -/
def sortInts (a : List Nat) : List Nat := List.insertionSort (· ≤ ·) a

/-! ## The attachment builder (`internal/vscodeprompt/attachment.go`) -/

/-- `summarizeHeadPlusLast`: keep the first `headN` lines plus the last line. -/
def summarizeHeadPlusLast (lines : List GoStr) (headN : Nat) (_tailN : Nat) : MapKS :=
  let n := lines.length
  let h := min headN n
  let m := (List.range' 1 h).foldl
    (fun m i => mapInsert m i (trimCR (lines.getD (i - 1) []))) []
  if 1 ≤ n then mapInsert m n (trimCR (lines.getD (n - 1) [])) else m

/-- `summarizeHeadTail`: keep the first `headN` and last `tailN` lines. -/
def summarizeHeadTail (lines : List GoStr) (headN tailN : Nat) : MapKS :=
  let n := lines.length
  let h := min headN n
  let m := (List.range' 1 h).foldl
    (fun m i => mapInsert m i (trimCR (lines.getD (i - 1) []))) []
  let start := max 1 (n - tailN + 1)
  (List.range' start (n + 1 - start)).foldl
    (fun m i => mapInsert m i (trimCR (lines.getD (i - 1) []))) m

/-- Per-line state of the `summarizeGo` loop. -/
structure SgState where
  kept : MapKS
  inImportBlock : Bool
  inTypeConstVarBlock : Bool
  blockDepth : Int
  inFunc : Bool
  funcStartLine : Nat
  funcSig : GoStr

/-- One iteration of the `summarizeGo` loop (`ln` is the 1-based line
number, mirroring the Go body including its `continue` structure). -/
def sgStep (st : SgState) (ln : Nat) (rawLine : GoStr) : SgState :=
  let line := trimCR rawLine
  let trim := goTrimSpace line
  if goStartsWith trim (gs "import (") ∧ ¬st.inFunc then
    { st with inImportBlock := true, kept := mapInsert st.kept ln line }
  else if st.inImportBlock ∧ ¬st.inFunc then
    { st with
        kept := mapInsert st.kept ln line,
        inImportBlock := if trim = gs ")" then false else st.inImportBlock }
  else if ¬st.inFunc ∧ (goStartsWith trim (gs "type (") ∨ goStartsWith trim (gs "const (")
      ∨ goStartsWith trim (gs "var (")) then
    { st with
        inTypeConstVarBlock := true,
        blockDepth := 1,
        kept := mapInsert st.kept ln line }
  else if st.inTypeConstVarBlock ∧ ¬st.inFunc then
    let d₁ := if line.contains '(' then st.blockDepth + (line.count '(' : Int)
      else st.blockDepth
    let d₂ := if line.contains ')' then d₁ - (line.count ')' : Int) else d₁
    { st with
        kept := mapInsert st.kept ln line,
        blockDepth := d₂,
        inTypeConstVarBlock :=
          if line.contains ')' ∧ d₂ ≤ 0 then false else st.inTypeConstVarBlock }
  else if ¬st.inFunc ∧ goStartsWith trim (gs "func ") then
    if line.contains lbrace then
      let sig := goTrimRight (line.takeWhile (· ≠ lbrace)) [' ', '\t'] ++ gs " \x7b…\x7d"
      let opened := line.count lbrace
      let closed := line.count rbrace
      let depth : Int := (opened : Int) - (closed : Int)
      if depth ≤ 0 ∧ line.contains rbrace then
        { st with
            kept := mapInsert st.kept ln sig,
            inFunc := false, funcStartLine := 0, funcSig := [] }
      else
        { st with
            kept := mapInsert st.kept ln sig,
            inFunc := true, funcStartLine := ln, funcSig := sig }
    else
      { st with
          kept := mapInsert st.kept ln line,
          inFunc := true, funcStartLine := ln, funcSig := line }
  else if st.inFunc then
    let kept' :=
      if line.contains lbrace ∧ st.funcStartLine ≠ 0 then
        let sig := (mapLookup st.kept st.funcStartLine).getD []
        mapInsert st.kept st.funcStartLine
          (goTrimRight sig [' ', '\t'] ++ gs " \x7b…\x7d")
      else st.kept
    if goTrimSpace line = [rbrace] then
      { st with kept := kept', inFunc := false, funcStartLine := 0, funcSig := [] }
    else
      { st with kept := kept' }
  else if goTrimSpace line = [] ∨ goStartsWith trim (gs "package ")
      ∨ goStartsWith trim (gs "type ") ∨ goStartsWith trim (gs "const ")
      ∨ goStartsWith trim (gs "var ") ∨ goStartsWith trim (gs "//") then
    { st with kept := mapInsert st.kept ln line }
  else st

/-- Fold of `sgStep` over the numbered lines. -/
def sgRun : SgState → Nat → List GoStr → SgState
  | st, _, [] => st
  | st, i, s :: rest => sgRun (sgStep st (i + 1) s) (i + 1) rest

/-- `summarizeGo`: keep package/import/type/const/var structure and
comments, collapse function bodies, keep the last line. -/
def summarizeGo (lines : List GoStr) : MapKS :=
  let st := sgRun ⟨[], false, false, 0, false, 0, []⟩ 0 lines
  let n := lines.length
  if 1 ≤ n then mapInsert st.kept n (trimCR (lines.getD (n - 1) [])) else st.kept

/-- `summarizeByType`: pick a strategy by the lower-cased file extension. -/
def summarizeByType (relPath : GoStr) (lines : List GoStr) : MapKS :=
  let ext := goToLower (goExt relPath)
  if ext = gs ".md" ∨ ext = gs ".txt" ∨ ext = gs ".json" ∨ ext = gs ".yml"
      ∨ ext = gs ".yaml" then
    summarizeHeadPlusLast lines 25 1
  else if ext = gs ".go" then summarizeGo lines
  else summarizeHeadTail lines 80 5

/-- The non-summarizing branch: `kept[i+1] = TrimRight(s, "\r")` for every
line, in order. -/
def keptNoSummarizeGo : MapKS → Nat → List GoStr → MapKS
  | m, _, [] => m
  | m, i, s :: rest => keptNoSummarizeGo (mapInsert m (i + 1) (trimCR s)) (i + 1) rest

/-- The `kept` map when `summarize` is false. -/
def keptNoSummarize (lines : List GoStr) : MapKS := keptNoSummarizeGo [] 0 lines

/-- `"true"` / `"false"` (`fmt.Sprintf("%t", b)`). -/
def boolStr (b : Bool) : GoStr := if b then gs "true" else gs "false"

/-- The opening wrapper tag of an attachment. -/
def attachmentOpenTag (base : GoStr) (summarize : Bool) : GoStr :=
  gs "<attachment id=\"" ++ base ++ gs "\" isSummarized=\"" ++ boolStr summarize
    ++ gs "\">\n"

/-- `filepathCommentLine`: comment syntax chosen by extension. -/
def filepathCommentLine (rel abs : GoStr) : GoStr :=
  let ext := goToLower (goExt rel)
  if ext = gs ".md" ∨ ext = gs ".html" ∨ ext = gs ".xml" ∨ ext = gs ".yaml"
      ∨ ext = gs ".yml" ∨ ext = gs ".json" then
    gs "<!-- filepath: " ++ abs ++ gs " -->\n"
  else if ext = gs ".py" ∨ ext = gs ".sh" then
    gs "# filepath: " ++ abs ++ gs "\n"
  else gs "// filepath: " ++ abs ++ gs "\n"

/-- The numbered entries of an attachment, in output (sorted-key) order. -/
def attachmentEntries (relPath content : GoStr) (summarize : Bool) :
    List (Nat × GoStr) :=
  let lines := splitNl (replCRNL content)
  let kept := if summarize then summarizeByType relPath lines else keptNoSummarize lines
  (sortInts (mapKeys kept)).map fun ln => (ln, (mapLookup kept ln).getD [])

/-- `BuildAttachment` from `attachment.go`. -/
def BuildAttachment (repoRoot relPath content : GoStr) (summarize : Bool) : GoStr :=
  let base := goBase relPath
  let abs := goJoin repoRoot relPath
  let lines := splitNl (replCRNL content)
  let total := lines.length
  let width := max (natToStr total).length 2
  let entriesStr :=
    ((attachmentEntries relPath content summarize).map fun e =>
      padLeftSpaces width (natToStr e.1) ++ gs ": " ++ e.2 ++ gs "\n").flatten
  attachmentOpenTag base summarize ++ filepathCommentLine relPath abs
    ++ entriesStr ++ gs "</attachment>\n"

/-! ## The prompt assembler (`internal/vscodeprompt/prompt.go`) -/

/-- `VSCodeContentPart` (`Type int`, `Text string`); type 1 is text. -/
structure VSCodeContentPart where
  type : Nat
  text : GoStr
deriving DecidableEq

/-- `VSCodeMessage` (`Role int`, `Content []VSCodeContentPart`). -/
structure VSCodeMessage where
  role : Nat
  content : List VSCodeContentPart
deriving DecidableEq

/-- `OpenAIMessage` (`Role string`, `Content string`). -/
structure OpenAIMessage where
  role : GoStr
  content : GoStr
deriving DecidableEq

/-- `Change`: one staged file (path, diff, attachment-wrapped original). -/
structure Change where
  path : GoStr
  diff : GoStr
  originalCode : GoStr
deriving DecidableEq

/-- `Data`: the prompt data (`vscodeprompt.Data`). -/
structure Data where
  repositoryName : GoStr
  branchName : GoStr
  recentUserCommits : List GoStr
  recentRepoCommits : List GoStr
  changes : List Change
  customInstructions : GoStr
  summarizeAttachments : Bool
deriving DecidableEq

/-- `systemPromptText()`: the fixed built-in system instruction. -/
def systemPromptText : GoStr := gs (
  "You are an AI programming assistant, helping a software developer to come with the best git commit message for their code changes.\n"
  ++ "You excel in interpreting the purpose behind code changes to craft succinct, clear commit messages that adhere to the repository's guidelines.\n\n"
  ++ "# First, think step-by-step:\n"
  ++ "1. Analyze the CODE CHANGES thoroughly to understand what's been modified.\n"
  ++ "2. Use the ORIGINAL CODE to understand the context of the CODE CHANGES. Use the line numbers to map the CODE CHANGES to the ORIGINAL CODE.\n"
  ++ "3. Identify the purpose of the changes to answer the *why* for the commit messages, also considering the optionally provided RECENT USER COMMITS.\n"
  ++ "4. Review the provided RECENT REPOSITORY COMMITS to identify established commit message conventions. Focus on the format and style, ignoring commit-specific details like refs, tags, and authors.\n"
  ++ "5. Generate a thoughtful and succinct commit message for the given CODE CHANGES. It MUST follow the the established writing conventions. 6. Remove any meta information like issue references, tags, or author names from the commit message. The developer will add them.\n"
  ++ "7. Now only show your message, wrapped with a single markdown ```text codeblock! Do not provide any explanations or details\n"
  ++ "Follow Microsoft content policies.\n"
  ++ "Avoid content that violates copyrights.\n"
  ++ "If you are asked to generate content that is harmful, hateful, racist, sexist, lewd, or violent, only respond with \"Sorry, I can't assist with that.\"\n"
  ++ "Keep your answers short and impersonal.\n")

/-- `buildUserText`: the labeled, tag-delimited user payload. -/
def buildUserText (d : Data) : GoStr :=
  gs "<repository-context>\n"
  ++ gs "# REPOSITORY DETAILS:\n"
  ++ gs "Repository name: " ++ d.repositoryName ++ gs "\n"
  ++ gs "Branch name: " ++ d.branchName ++ gs "\n\n"
  ++ gs "</repository-context>\n"
  ++ (if d.recentUserCommits.length > 0 then
        gs "<user-commits>\n"
        ++ gs "# RECENT USER COMMITS (For reference only, do not copy!):\n"
        ++ (d.recentUserCommits.map fun c => gs "- " ++ c ++ gs "\n").flatten
        ++ gs "\n</user-commits>\n"
      else [])
  ++ (if d.recentRepoCommits.length > 0 then
        gs "<recent-commits>\n"
        ++ gs "# RECENT REPOSITORY COMMITS (For reference only, do not copy!):\n"
        ++ (d.recentRepoCommits.map fun c => gs "- " ++ c ++ gs "\n").flatten
        ++ gs "\n</recent-commits>\n"
      else [])
  ++ gs "<changes>\n"
  ++ (d.changes.map fun ch =>
        gs "<original-code>\n"
        ++ gs "# ORIGINAL CODE:\n"
        ++ ch.originalCode
        ++ gs "\n</original-code>\n"
        ++ gs "<code-changes>\n"
        ++ gs "# CODE CHANGES:\n"
        ++ gs "```diff\n"
        ++ goTrimRight ch.diff ['\n']
        ++ gs "\n```\n"
        ++ gs "</code-changes>\n").flatten
  ++ gs "\n</changes>\n"
  ++ gs "<reminder>\n"
  ++ gs "Now generate a commit messages that describe the CODE CHANGES.\n"
  ++ gs "DO NOT COPY commits from RECENT COMMITS, but use it as reference for the commit style.\n"
  ++ gs "ONLY return a single markdown code block, NO OTHER PROSE!\n"
  ++ gs "```text\ncommit message goes here\n```\n"
  ++ gs "</reminder>\n"
  ++ gs "<custom-instructions>\n"
  ++ (if goTrimSpace d.customInstructions ≠ [] then
        goTrimRight d.customInstructions ['\n'] ++ gs "\n"
      else [])
  ++ gs "\n</custom-instructions>\n"

/-- `BuildVSCodeMessages`: role 0 (system) with the built-in instruction,
then role 1 (user) with the payload. -/
def BuildVSCodeMessages (d : Data) : List VSCodeMessage :=
  [ ⟨0, [⟨1, systemPromptText⟩]⟩,
    ⟨1, [⟨1, buildUserText d⟩]⟩ ]

/-- `ToOpenAIMessages`: role 0 becomes `"system"`, everything else
`"user"`; type-1 parts are concatenated. -/
def ToOpenAIMessages (vs : List VSCodeMessage) : List OpenAIMessage :=
  vs.map fun m =>
    ⟨if m.role = 0 then gs "system" else gs "user",
     (m.content.map fun p => if p.type = 1 then p.text else []).flatten⟩

/-! ## The code-block extractor (`reTextBlock` / `ExtractOneTextCodeBlock`)

The Go source matches `(?ms)^```(?:\w+)?\s*([\s\S]+?)\s*```$` with
`FindStringSubmatch`.  The functions below implement exactly that
pattern's leftmost-first (backtracking-priority) semantics: scan start
positions left to right, require a line start followed by a fence, try
the optional word run longest-first, the following whitespace run
longest-first, and the lazy capture group shortest-first; the closing
`\s*```$` is deterministic (a maximal whitespace run, a fence, then end
of line or input). -/

/-- The backtick character (written via its code point). -/
def backtick : Char := Char.ofNat 96

/-- A three-backtick fence. -/
def fence : GoStr := [backtick, backtick, backtick]

/-- RE2 `\w`. -/
def isWordChar (c : Char) : Bool :=
  ('a' ≤ c ∧ c ≤ 'z') ∨ ('A' ≤ c ∧ c ≤ 'Z') ∨ ('0' ≤ c ∧ c ≤ '9') ∨ c = '_'

/-- RE2 `\s`. -/
def isReSpace (c : Char) : Bool :=
  c = ' ' || c = '\t' || c = '\n' || c = '\x0b' || c = '\x0c' || c = '\r'

/-- `(?m)$`: end of input or immediately before a newline. -/
def atLineEnd : GoStr → Bool
  | [] => true
  | c :: _ => c = '\n'

/-- Does `\s*```$` match the whole-suffix prefix of `r`? -/
def closeFence (r : GoStr) : Bool :=
  let r' := r.dropWhile isReSpace
  goStartsWith r' fence ∧ atLineEnd (r'.drop 3)

/-- Lazy capture `([\s\S]+?)`: shortest non-empty prefix of `r` whose
remainder matches `\s*```$`. -/
def tryContent (r : GoStr) : Option GoStr :=
  (List.range r.length).findSome? fun i =>
    if closeFence (r.drop (i + 1)) then some (r.take (i + 1)) else none

/-- Greedy `\s*` before the capture: longest whitespace run first. -/
def tryAfterWord (r : GoStr) : Option GoStr :=
  let maxS := (r.takeWhile isReSpace).length
  (List.range (maxS + 1)).findSome? fun j => tryContent (r.drop (maxS - j))

/-- Match the pattern minus the `^` anchor at the head of `s`, returning
the capture group; `(?:\w+)?` greedy (longest word run first, then none). -/
def matchFenceAt (s : GoStr) : Option GoStr :=
  if goStartsWith s fence then
    let rest := s.drop 3
    let maxW := (rest.takeWhile isWordChar).length
    (List.range (maxW + 1)).findSome? fun j => tryAfterWord (rest.drop (maxW - j))
  else none

/-- `reTextBlock.FindStringSubmatch`: leftmost start position that is a
line start and admits a match. -/
def reTextBlockFind : GoStr → Bool → Option GoStr
  | [], _ => none
  | c :: rest, lineStart =>
    match (if lineStart then matchFenceAt (c :: rest) else none) with
    | some g => some g
    | none => reTextBlockFind rest (c = '\n')

/-- `ExtractOneTextCodeBlock`: the trimmed capture on a match, otherwise
the trimmed input with `ok = false`. -/
def ExtractOneTextCodeBlock (s : GoStr) : GoStr × Bool :=
  let s' := goTrimSpace s
  match reTextBlockFind s' true with
  | some g => (goTrimSpace g, true)
  | none => (s', false)

/-! ## The provider adapters: message translation and response decoding -/

/-- An Anthropic wire message. -/
structure AnthropicMessage where
  role : GoStr
  content : GoStr
deriving DecidableEq

/-- The `system` top-level field of the Anthropic request: parts of
role-3 messages, each followed by a newline, then trimmed. -/
def anthropicSystemPrompt (msgs : List VSCodeMessage) : GoStr :=
  goTrimSpace
    (((msgs.filter fun m => m.role = 3).map fun m =>
      (m.content.map fun p => p.text ++ gs "\n").flatten).flatten)

/-- The Anthropic message list: role 3 is hoisted out, role 2 becomes
`"assistant"`, every other role tag becomes `"user"`. -/
def anthropicMessages (msgs : List VSCodeMessage) : List AnthropicMessage :=
  msgs.filterMap fun m =>
    if m.role = 3 then none
    else some ⟨if m.role = 2 then gs "assistant" else gs "user",
               (m.content.map fun p => p.text).flatten⟩

/-- Anthropic response decoding: `content` empty is the empty-result. -/
def anthropicExtract (contents : List GoStr) : Except GoStr GoStr :=
  match contents with
  | [] => .error (gs "empty response content")
  | c :: _ => .ok c

/-- A Gemini `content` element. -/
structure GeminiContent where
  role : GoStr
  parts : List GoStr
deriving DecidableEq

/-- The Gemini `systemInstruction` parts: parts of role-3 messages. -/
def geminiSystemParts (msgs : List VSCodeMessage) : List GoStr :=
  ((msgs.filter fun m => m.role = 3).map fun m =>
    m.content.map fun p => p.text).flatten

/-- The Gemini `systemInstruction` field, present only when non-empty. -/
def geminiSystemInstruction (msgs : List VSCodeMessage) : Option (List GoStr) :=
  if (geminiSystemParts msgs).length > 0 then some (geminiSystemParts msgs) else none

/-- The Gemini `contents` list: role 3 is hoisted out, role 2 becomes
`"model"`, every other role tag becomes `"user"`. -/
def geminiContents (msgs : List VSCodeMessage) : List GeminiContent :=
  msgs.filterMap fun m =>
    if m.role = 3 then none
    else some ⟨if m.role = 2 then gs "model" else gs "user",
               m.content.map fun p => p.text⟩

/-- Gemini response decoding: no candidate or no part is the empty-result. -/
def geminiExtract (candidates : List (List GoStr)) : Except GoStr GoStr :=
  match candidates with
  | [] => .error (gs "empty response from gemini")
  | parts :: _ =>
    match parts with
    | [] => .error (gs "empty response from gemini")
    | p :: _ => .ok p

/-- An Ollama wire message. -/
structure OllamaMessage where
  role : GoStr
  content : GoStr
deriving DecidableEq

/-- The Ollama message list: role 2 becomes `"assistant"`, role 3
`"system"`, every other role tag `"user"` (no hoisting). -/
def ollamaMessages (msgs : List VSCodeMessage) : List OllamaMessage :=
  msgs.map fun m =>
    ⟨if m.role = 2 then gs "assistant"
      else if m.role = 3 then gs "system" else gs "user",
     (m.content.map fun p => p.text).flatten⟩

/-- Ollama response decoding: the message content is returned as-is,
empty or not — Ollama has no empty-result error. -/
def ollamaExtract (content : GoStr) : Except GoStr GoStr := .ok content

/-- The decoded OpenAI chat response. -/
structure ChatResp where
  choices : List GoStr
  error : Option (GoStr × GoStr)
deriving DecidableEq

/-- OpenAI response decoding (`internal/openai/client.go`): an API error
is reported verbatim; no choices is `"llm: empty choices"`. -/
def openaiExtract (out : ChatResp) : Except GoStr GoStr :=
  match out.error with
  | some e => .error (gs "llm error: " ++ e.1 ++ gs " (" ++ e.2 ++ gs ")")
  | none =>
    match out.choices with
    | [] => .error (gs "llm: empty choices")
    | c :: _ => .ok c

/-! ## The generation control loop (`runInteractiveLoop`, run.go) -/

/-- The retry predicate of the loop (run.go line 282):
`strings.Contains(err.Error(), "empty choices")`. -/
def retryableErr (e : GoStr) : Bool := goContains e (gs "empty choices")

/-- The retry loop of run.go lines 274-294: `i` is the loop counter,
the fuel is `maxRetries - i`.  Returns the number of provider calls made
and the final outcome.  (The fuel-exhausted case returns Go's zero
values — a nil error and the empty string — and is unreachable for
`maxRetries ≥ 1`.) -/
def genAttempts (provider : Nat → Except GoStr GoStr) (maxRetries : Nat) :
    Nat → Nat → Nat × Except GoStr GoStr
  | _, 0 => (0, .ok [])
  | i, fuel + 1 =>
    match provider i with
    | .ok t => (1, .ok t)
    | .error e =>
      if retryableErr e ∧ i < maxRetries - 1 then
        let r := genAttempts provider maxRetries (i + 1) fuel
        (r.1 + 1, r.2)
      else (1, .error e)

/-- One generation's provider calls, with the fixed `maxRetries := 5`. -/
def generationAttempts (provider : Nat → Except GoStr GoStr) :
    Nat × Except GoStr GoStr :=
  genAttempts provider 5 0 5

/-- The synthetic Conventional-Commits reminder message (run.go 263-268). -/
def conventionalReminderMsg : VSCodeMessage :=
  ⟨1, [⟨1, gs "CRITICAL INSTRUCTION: You must strictly follow the Conventional Commits specification (e.g. 'feat: add spinner', 'fix: resolve bug').\nDo not just describe the change; prefix it with the type."⟩]⟩

/-- The message list sent to the provider on one attempt: a copy of the
stored base messages, with the reminder appended when `conventional`
(run.go 259-270). -/
def currentMsgsFor (conventional : Bool) (msgs : List VSCodeMessage) :
    List VSCodeMessage :=
  if conventional then msgs ++ [conventionalReminderMsg] else msgs

/-- One iteration of the outer regeneration loop, as it acts on the
stored message variable: what is sent, and the variable afterwards (the
loop never reassigns `msgs`). -/
def regenStep (conventional : Bool) (msgs : List VSCodeMessage) :
    List VSCodeMessage × List VSCodeMessage :=
  (currentMsgsFor conventional msgs, msgs)

/-- `n` regenerations: the per-attempt sent lists and the final state. -/
def regenTrace (conventional : Bool) :
    List VSCodeMessage → Nat → List (List VSCodeMessage) × List VSCodeMessage
  | msgs, 0 => ([], msgs)
  | msgs, n + 1 =>
    let step := regenStep conventional msgs
    let rest := regenTrace conventional step.2 n
    (step.1 :: rest.1, rest.2)

/-! ## The override system-prompt template (claim C6) -/

/-- Modelled from the spec: the system-prompt override template renderer.
The template-aware `BuildVSCodeMessages` is missing from the sources —
`run.go` line 87 assigns `data.SystemPromptTemplate` and the package test
exercises it with the placeholders `(RepositoryName, BranchName)` in
double-brace syntax, but the `prompt.go` present predates that field.
Per the spec, the recognized placeholders are substituted and any other
literal text passes through unchanged.  The fuel argument (instantiated
with the template length, enough for the whole scan since every step
consumes at least one character) only makes the recursion structural. -/
def renderPromptTemplateAux (repoName branchName : GoStr) : Nat → GoStr → GoStr
  | 0, s => s
  | _, [] => []
  | fuel + 1, c :: rest =>
    if (gs "\x7b\x7b.RepositoryName\x7d\x7d").isPrefixOf (c :: rest) then
      repoName ++ renderPromptTemplateAux repoName branchName fuel (rest.drop 18)
    else if (gs "\x7b\x7b.BranchName\x7d\x7d").isPrefixOf (c :: rest) then
      branchName ++ renderPromptTemplateAux repoName branchName fuel (rest.drop 14)
    else c :: renderPromptTemplateAux repoName branchName fuel rest

/-- Modelled from the spec: substitute the two recognized placeholders
throughout the template. -/
def renderPromptTemplate (repoName branchName s : GoStr) : GoStr :=
  renderPromptTemplateAux repoName branchName s.length s

/-- The prompt data together with the override template field. -/
structure DataT extends Data where
  systemPromptTemplate : GoStr
deriving DecidableEq

/-- Modelled from the spec: `BuildVSCodeMessages` with override-template
support (see `renderPromptTemplate`).  A supplied (non-empty) override is
rendered with the placeholders substituted and completely replaces the
built-in instruction text; otherwise the built-in text is used. -/
def BuildVSCodeMessagesTmpl (d : DataT) : List VSCodeMessage :=
  let systemText :=
    if d.systemPromptTemplate ≠ [] then
      renderPromptTemplate d.repositoryName d.branchName d.systemPromptTemplate
    else systemPromptText
  [ ⟨0, [⟨1, systemText⟩]⟩,
    ⟨1, [⟨1, buildUserText d.toData⟩]⟩ ]

/-- Decidable equality of outcomes, for evaluating concrete runs. -/
instance {ε α : Type} [DecidableEq ε] [DecidableEq α] : DecidableEq (Except ε α) := fun a b =>
  match a, b with
  | .ok x, .ok y => if h : x = y then isTrue (by rw [h]) else isFalse (by simp [h])
  | .error x, .error y => if h : x = y then isTrue (by rw [h]) else isFalse (by simp [h])
  | .ok _, .error _ => isFalse (by simp)
  | .error _, .ok _ => isFalse (by simp)

/-- The user-commits section of the user payload: absent (empty) for an
empty list, otherwise the wrapper, the header, and one bullet per entry. -/
def userCommitsSection (cs : List GoStr) : GoStr :=
  if cs.length > 0 then
    gs "<user-commits>\n"
    ++ gs "# RECENT USER COMMITS (For reference only, do not copy!):\n"
    ++ (cs.map fun c => gs "- " ++ c ++ gs "\n").flatten
    ++ gs "\n</user-commits>\n"
  else []

/-- The part of the user payload before the user-commits section. -/
def userTextBefore (d : Data) : GoStr :=
  gs "<repository-context>\n"
  ++ gs "# REPOSITORY DETAILS:\n"
  ++ gs "Repository name: " ++ d.repositoryName ++ gs "\n"
  ++ gs "Branch name: " ++ d.branchName ++ gs "\n\n"
  ++ gs "</repository-context>\n"

/-- The part of the user payload after the user-commits section. -/
def userTextAfter (d : Data) : GoStr :=
  (if d.recentRepoCommits.length > 0 then
      gs "<recent-commits>\n"
      ++ gs "# RECENT REPOSITORY COMMITS (For reference only, do not copy!):\n"
      ++ (d.recentRepoCommits.map fun c => gs "- " ++ c ++ gs "\n").flatten
      ++ gs "\n</recent-commits>\n"
    else [])
  ++ gs "<changes>\n"
  ++ (d.changes.map fun ch =>
        gs "<original-code>\n"
        ++ gs "# ORIGINAL CODE:\n"
        ++ ch.originalCode
        ++ gs "\n</original-code>\n"
        ++ gs "<code-changes>\n"
        ++ gs "# CODE CHANGES:\n"
        ++ gs "```diff\n"
        ++ goTrimRight ch.diff ['\n']
        ++ gs "\n```\n"
        ++ gs "</code-changes>\n").flatten
  ++ gs "\n</changes>\n"
  ++ gs "<reminder>\n"
  ++ gs "Now generate a commit messages that describe the CODE CHANGES.\n"
  ++ gs "DO NOT COPY commits from RECENT COMMITS, but use it as reference for the commit style.\n"
  ++ gs "ONLY return a single markdown code block, NO OTHER PROSE!\n"
  ++ gs "```text\ncommit message goes here\n```\n"
  ++ gs "</reminder>\n"
  ++ gs "<custom-instructions>\n"
  ++ (if goTrimSpace d.customInstructions ≠ [] then
        goTrimRight d.customInstructions ['\n'] ++ gs "\n"
      else [])
  ++ gs "\n</custom-instructions>\n"

/-! ## Lemmas -/

theorem splitNl_ne_nil (s : GoStr) : splitNl s ≠ [] := by
  match s with
  | [] => simp [splitNl]
  | c :: rest =>
    simp only [splitNl]
    split
    · simp
    · match h : splitNl rest with
      | [] => simp [consHead]
      | h' :: t => simp [consHead]

theorem splitNl_cons_nl (rest : GoStr) : splitNl ('\n' :: rest) = [] :: splitNl rest := by
  simp [splitNl]

theorem splitNl_cons_other {c : Char} (h : c ≠ '\n') (rest : GoStr) :
    splitNl (c :: rest) = consHead c (splitNl rest) := by
  simp [splitNl, h]

theorem replCRNL_crlf (rest : GoStr) :
    replCRNL ('\r' :: '\n' :: rest) = '\n' :: replCRNL rest := by
  simp [replCRNL]

theorem replCRNL_cons₂ {c₁ c₂ : Char} (h : ¬(c₁ = '\r' ∧ c₂ = '\n')) (rest : GoStr) :
    replCRNL (c₁ :: c₂ :: rest) = c₁ :: replCRNL (c₂ :: rest) := by
  simp only [replCRNL]
  rw [if_neg h]

theorem trimCR_cons (c : Char) (s : GoStr) :
    trimCR (c :: s) = if c = '\r' ∧ trimCR s = [] then [] else c :: trimCR s := by
  by_cases h : c = '\r'
  · subst h
    simp [trimCR, goTrimRight]
  · simp [trimCR, goTrimRight, h]

theorem trimCR_cons_congr (c : Char) {s₁ s₂ : GoStr} (h : trimCR s₁ = trimCR s₂) :
    trimCR (c :: s₁) = trimCR (c :: s₂) := by
  rw [trimCR_cons, trimCR_cons, h]

theorem map_trimCR_consHead (c : Char) {L₁ L₂ : List GoStr}
    (h₁ : L₁ ≠ []) (h₂ : L₂ ≠ [])
    (h : L₁.map trimCR = L₂.map trimCR) :
    (consHead c L₁).map trimCR = (consHead c L₂).map trimCR := by
  match L₁, L₂ with
  | [], _ => exact absurd rfl h₁
  | _ :: _, [] => exact absurd rfl h₂
  | a :: t₁, b :: t₂ =>
    simp only [List.map_cons, List.cons.injEq] at h
    simp only [consHead, List.map_cons]
    exact congrArg₂ List.cons (trimCR_cons_congr c h.1) h.2

/-- Replacing CRLF by LF before splitting on LF does not change the lines
up to trailing-carriage-return stripping. -/
theorem map_trimCR_splitNl_replCRNL : ∀ cs : GoStr,
    (splitNl (replCRNL cs)).map trimCR = (splitNl cs).map trimCR
  | [] => rfl
  | [c] => rfl
  | c₁ :: c₂ :: rest => by
    by_cases h : c₁ = '\r' ∧ c₂ = '\n'
    · obtain ⟨h₁, h₂⟩ := h
      subst h₁; subst h₂
      have ih := map_trimCR_splitNl_replCRNL rest
      rw [replCRNL_crlf, splitNl_cons_nl, splitNl_cons_other (by decide) ('\n' :: rest),
        splitNl_cons_nl]
      simp only [consHead, List.map_cons]
      exact congrArg₂ List.cons (by decide) ih
    · rw [replCRNL_cons₂ h]
      have ih := map_trimCR_splitNl_replCRNL (c₂ :: rest)
      by_cases hc : c₁ = '\n'
      · subst hc
        rw [splitNl_cons_nl, splitNl_cons_nl]
        simp only [List.map_cons]
        exact congrArg₂ List.cons rfl ih
      · rw [splitNl_cons_other hc, splitNl_cons_other hc]
        exact map_trimCR_consHead c₁ (splitNl_ne_nil _) (splitNl_ne_nil _) ih

theorem length_splitNl_replCRNL (cs : GoStr) :
    (splitNl (replCRNL cs)).length = (splitNl cs).length := by
  have h := congrArg List.length (map_trimCR_splitNl_replCRNL cs)
  simpa using h

/-! ## The numbered entries when `summarize` is false (claims C3, C9) -/

theorem mapInsert_fresh {m : MapKS} {k : Nat} (v : GoStr)
    (h : ∀ p ∈ m, p.1 ≠ k) : mapInsert m k v = m ++ [(k, v)] := by
  have h' : (m.any fun p => decide (p.1 = k)) = false := by
    rw [List.any_eq_false]
    intro p hp
    simpa using h p hp
  simp [mapInsert, h']

theorem keptNoSummarizeGo_eq : ∀ (lines : List GoStr) (m : MapKS) (i : Nat),
    (∀ p ∈ m, p.1 ≤ i) →
    keptNoSummarizeGo m i lines
      = m ++ (List.range' (i + 1) lines.length).zip (lines.map trimCR)
  | [], m, i, _ => by simp [keptNoSummarizeGo]
  | s :: rest, m, i, h => by
    rw [show keptNoSummarizeGo m i (s :: rest)
        = keptNoSummarizeGo (mapInsert m (i + 1) (trimCR s)) (i + 1) rest from rfl]
    rw [mapInsert_fresh (trimCR s) (fun p hp => Nat.ne_of_lt (Nat.lt_succ_of_le (h p hp)))]
    rw [keptNoSummarizeGo_eq rest (m ++ [(i + 1, trimCR s)]) (i + 1)
      (by
        intro p hp
        rcases List.mem_append.mp hp with hm | hs
        · exact Nat.le_succ_of_le (h p hm)
        · simp at hs
          simp [hs])]
    simp [List.range'_succ, List.append_assoc]

theorem keptNoSummarize_eq (lines : List GoStr) :
    keptNoSummarize lines = (List.range' 1 lines.length).zip (lines.map trimCR) := by
  simpa using keptNoSummarizeGo_eq lines [] 0 (by simp)

theorem sorted_range' (a n : Nat) : List.Sorted (· ≤ ·) (List.range' a n) := by
  have h := List.pairwise_lt_range' a n 1 (by omega)
  exact h.imp fun hab => Nat.le_of_lt hab

theorem nodup_range' (a n : Nat) : (List.range' a n).Nodup := by
  have h := List.pairwise_lt_range' a n 1 (by omega)
  exact h.imp fun hab => Nat.ne_of_lt hab

theorem sortInts_range' (a n : Nat) : sortInts (List.range' a n) = List.range' a n :=
  (sorted_range' a n).insertionSort_eq

/-- Rendering the sorted keys through `mapLookup` reconstructs a map whose
keys are distinct. -/
theorem mapKeys_lookup_reconstruct : ∀ m : MapKS, (mapKeys m).Nodup →
    ((mapKeys m).map fun k => (k, (mapLookup m k).getD [])) = m
  | [], _ => rfl
  | (k, v) :: rest, h => by
    simp only [mapKeys, List.map_cons] at h ⊢
    have hk : k ∉ rest.map Prod.fst := (List.nodup_cons.mp h).1
    have hrest : (rest.map Prod.fst).Nodup := (List.nodup_cons.mp h).2
    rw [show mapLookup ((k, v) :: rest) k = some v from by simp [mapLookup]]
    simp only [Option.getD_some, List.cons.injEq, true_and]
    rw [List.map_congr_left (fun a ha => by
      have hak : a ≠ k := fun heq => hk (heq ▸ ha)
      rw [show mapLookup ((k, v) :: rest) a = mapLookup rest a from by
        simp [mapLookup, hak]])]
    exact mapKeys_lookup_reconstruct rest hrest

/-- With `summarize = false` the rendered numbered entries are exactly the
1-indexed input lines after trailing-carriage-return stripping, in order. -/
theorem attachmentEntries_noSummarize_eq (relPath content : GoStr) :
    attachmentEntries relPath content false
      = (List.range' 1 (splitNl content).length).zip ((splitNl content).map trimCR) := by
  have hkept := keptNoSummarize_eq (splitNl (replCRNL content))
  have hkeys : mapKeys (keptNoSummarize (splitNl (replCRNL content)))
      = List.range' 1 (splitNl (replCRNL content)).length := by
    rw [hkept]
    exact List.map_fst_zip _ _ (by simp)
  have hnodup : (mapKeys (keptNoSummarize (splitNl (replCRNL content)))).Nodup := by
    rw [hkeys]; exact nodup_range' 1 _
  have hrec := mapKeys_lookup_reconstruct _ hnodup
  calc attachmentEntries relPath content false
      = (sortInts (mapKeys (keptNoSummarize (splitNl (replCRNL content))))).map
          (fun ln =>
            (ln, (mapLookup (keptNoSummarize (splitNl (replCRNL content))) ln).getD [])) := by
        simp only [attachmentEntries, Bool.false_eq_true, if_false]
    _ = (mapKeys (keptNoSummarize (splitNl (replCRNL content)))).map
          (fun ln =>
            (ln, (mapLookup (keptNoSummarize (splitNl (replCRNL content))) ln).getD [])) := by
        rw [hkeys, sortInts_range', ← hkeys]
    _ = keptNoSummarize (splitNl (replCRNL content)) := hrec
    _ = (List.range' 1 (splitNl (replCRNL content)).length).zip
          ((splitNl (replCRNL content)).map trimCR) := hkept
    _ = (List.range' 1 (splitNl content).length).zip ((splitNl content).map trimCR) := by
        rw [map_trimCR_splitNl_replCRNL content, length_splitNl_replCRNL content]

/-! ## Empty content (claim C3) -/

theorem summarizeByType_single_empty (relPath : GoStr) :
    summarizeByType relPath [[]] = [(1, [])] := by
  simp only [summarizeByType]
  split_ifs with h₁ h₂
  · decide
  · decide
  · decide

theorem attachmentEntries_empty (relPath : GoStr) (smz : Bool) :
    attachmentEntries relPath [] smz = [(1, [])] := by
  cases smz with
  | false =>
    simp only [attachmentEntries, Bool.false_eq_true, if_false]
    decide
  | true =>
    simp only [attachmentEntries, if_true]
    change (sortInts (mapKeys (summarizeByType relPath [[]]))).map
      (fun ln => (ln, (mapLookup (summarizeByType relPath [[]]) ln).getD [])) = [(1, [])]
    rw [summarizeByType_single_empty]
    decide

theorem BuildAttachment_empty (repoRoot relPath : GoStr) (smz : Bool) :
    BuildAttachment repoRoot relPath [] smz
      = attachmentOpenTag (goBase relPath) smz
        ++ filepathCommentLine relPath (goJoin repoRoot relPath)
        ++ gs " 1: \n" ++ gs "</attachment>\n" := by
  simp only [BuildAttachment]
  rw [attachmentEntries_empty relPath smz]
  rfl

/-- A template with no brace character renders to itself. -/
theorem renderPromptTemplateAux_no_brace (repoName branchName : GoStr) :
    ∀ (fuel : Nat) (s : GoStr), lbrace ∉ s →
      renderPromptTemplateAux repoName branchName fuel s = s
  | 0, s, _ => by rw [renderPromptTemplateAux]
  | _ + 1, [], _ => by simp [renderPromptTemplateAux]
  | fuel + 1, c :: rest, h => by
    have hc : c ≠ lbrace := fun hceq => h (hceq ▸ List.mem_cons_self c rest)
    have hrest : lbrace ∉ rest := fun hr => h (List.mem_cons_of_mem c hr)
    rw [renderPromptTemplateAux]
    rw [if_neg (by
      rw [show gs "\x7b\x7b.RepositoryName\x7d\x7d"
          = lbrace :: gs "\x7b.RepositoryName\x7d\x7d" from by decide]
      simp only [List.isPrefixOf, Bool.and_eq_true, beq_iff_eq]
      intro hpre
      exact hc hpre.1.symm)]
    rw [if_neg (by
      rw [show gs "\x7b\x7b.BranchName\x7d\x7d"
          = lbrace :: gs "\x7b.BranchName\x7d\x7d" from by decide]
      simp only [List.isPrefixOf, Bool.and_eq_true, beq_iff_eq]
      intro hpre
      exact hc hpre.1.symm)]
    exact congrArg (c :: ·) (renderPromptTemplateAux_no_brace repoName branchName fuel rest hrest)

theorem renderPromptTemplate_no_brace (repoName branchName : GoStr)
    (s : GoStr) (h : lbrace ∉ s) :
    renderPromptTemplate repoName branchName s = s :=
  renderPromptTemplateAux_no_brace repoName branchName s.length s h

theorem generationAttempts_retryable (e : GoStr) (h : retryableErr e = true) :
    generationAttempts (fun _ => .error e) = (5, .error e) := by
  simp [generationAttempts, genAttempts, h]

theorem generationAttempts_fatal (provider : Nat → Except GoStr GoStr) (e : GoStr)
    (h : retryableErr e = false) (hp : provider 0 = .error e) :
    generationAttempts provider = (1, .error e) := by
  simp [generationAttempts, genAttempts, hp, h]

theorem buildUserText_decomp (d : Data) :
    buildUserText d
      = userTextBefore d ++ userCommitsSection d.recentUserCommits ++ userTextAfter d := by
  simp only [buildUserText, userTextBefore, userCommitsSection, userTextAfter,
    List.append_assoc]

/-! ## Claim theorems -/

/-- Claim C1, counterexample: with the Anthropic adapter active, a
success-with-no-content response yields the error `"empty response
content"`, which the control loop does not recognize as retryable — the
cycle makes exactly one provider call and aborts, contradicting the
claim that the empty-result failure is retried whichever provider is
active. -/
theorem anthropic_empty_result_not_retried_cex :
    anthropicExtract [] = .error (gs "empty response content")
  ∧ retryableErr (gs "empty response content") = false
  ∧ generationAttempts (fun _ => anthropicExtract []) = (1, .error (gs "empty response content"))
  ∧ (generationAttempts (fun _ => anthropicExtract [])).1 ≠ 5 := by
  refine ⟨by decide, by decide, by decide, by decide⟩

/-- Claim C1, amended: the four adapters do not surface the empty-result
condition uniformly, and only the OpenAI adapter's wording is retried.
OpenAI reports `"llm: empty choices"`, which the loop retries to the
bound of 5 attempts; Anthropic reports `"empty response content"` and
Gemini `"empty response from gemini"`, neither of which matches the
loop's `"empty choices"` retry predicate, so those abort after exactly
one call; Ollama returns success with empty content (no empty-result
error at all). -/
theorem empty_result_retry_per_provider :
    openaiExtract ⟨[], none⟩ = .error (gs "llm: empty choices")
  ∧ generationAttempts (fun _ => openaiExtract ⟨[], none⟩)
      = (5, .error (gs "llm: empty choices"))
  ∧ generationAttempts (fun _ => geminiExtract [])
      = (1, .error (gs "empty response from gemini"))
  ∧ ollamaExtract [] = .ok []
  ∧ retryableErr (gs "llm: empty choices") = true
  ∧ retryableErr (gs "empty response from gemini") = false := by
  refine ⟨by decide, by decide, by decide, by decide, by decide, by decide⟩

/-- Claim C2: `BuildVSCodeMessages` tags the system message 0 and the
user message 1; the Anthropic, Gemini and Ollama adapters hoist only
role tag 3 into the backend's system role/side-channel (and map tag 2 to
the assistant/model role), so the base prompt's system message travels
to those three backends as an ordinary `"user"` message with an empty
side-channel, whereas `ToOpenAIMessages` maps role tag 0 to
`"system"`. -/
theorem base_prompt_roles_per_backend (d : Data) :
    anthropicMessages (BuildVSCodeMessages d)
        = [⟨gs "user", systemPromptText⟩, ⟨gs "user", buildUserText d⟩]
  ∧ anthropicSystemPrompt (BuildVSCodeMessages d) = []
  ∧ geminiContents (BuildVSCodeMessages d)
        = [⟨gs "user", [systemPromptText]⟩, ⟨gs "user", [buildUserText d]⟩]
  ∧ geminiSystemInstruction (BuildVSCodeMessages d) = none
  ∧ ollamaMessages (BuildVSCodeMessages d)
        = [⟨gs "user", systemPromptText⟩, ⟨gs "user", buildUserText d⟩]
  ∧ ToOpenAIMessages (BuildVSCodeMessages d)
        = [⟨gs "system", systemPromptText⟩, ⟨gs "user", buildUserText d⟩]
  ∧ (∀ parts, anthropicMessages [⟨3, parts⟩] = []
      ∧ geminiContents [⟨3, parts⟩] = []
      ∧ ollamaMessages [⟨3, parts⟩]
          = [⟨gs "system", (parts.map fun p => p.text).flatten⟩])
  ∧ (∀ parts, anthropicMessages [⟨2, parts⟩]
          = [⟨gs "assistant", (parts.map fun p => p.text).flatten⟩]
      ∧ geminiContents [⟨2, parts⟩] = [⟨gs "model", parts.map fun p => p.text⟩]
      ∧ ollamaMessages [⟨2, parts⟩]
          = [⟨gs "assistant", (parts.map fun p => p.text).flatten⟩]) := by
  refine ⟨?_, ?_, ?_, ?_, ?_, ?_, ?_, ?_⟩
  · simp [anthropicMessages, BuildVSCodeMessages]
  · simp [anthropicSystemPrompt, BuildVSCodeMessages, goTrimSpace]
  · simp [geminiContents, BuildVSCodeMessages]
  · simp [geminiSystemInstruction, geminiSystemParts, BuildVSCodeMessages]
  · simp [ollamaMessages, BuildVSCodeMessages]
  · simp [ToOpenAIMessages, BuildVSCodeMessages]
  · intro parts
    refine ⟨by simp [anthropicMessages], by simp [geminiContents], by simp [ollamaMessages]⟩
  · intro parts
    refine ⟨by simp [anthropicMessages], by simp [geminiContents], by simp [ollamaMessages]⟩

/-- Claim C3, counterexample: on empty content the attachment block is
not wrapper-and-comment only — splitting the empty string yields one
empty line, so one numbered entry `" 1: "` is emitted (total is 1, not
0). -/
theorem attachment_empty_content_cex :
    BuildAttachment (gs "root") (gs "f.txt") [] false
      = gs "<attachment id=\"f.txt\" isSummarized=\"false\">\n// filepath: root/f.txt\n 1: \n</attachment>\n"
  ∧ attachmentEntries (gs "f.txt") [] false ≠ [] := by
  refine ⟨by decide, by decide⟩

/-- Claim C3, amended: for every call of the attachment builder on empty
content (any paths, either summarize flag), the produced block consists
of the wrapper tags, the path-comment line, and exactly one numbered
entry for line 1 with empty text (the total line count is 1, because
splitting the empty string produces one empty line). -/
theorem attachment_empty_content_amended (repoRoot relPath : GoStr) (summarize : Bool) :
    BuildAttachment repoRoot relPath [] summarize
      = attachmentOpenTag (goBase relPath) summarize
        ++ filepathCommentLine relPath (goJoin repoRoot relPath)
        ++ gs " 1: \n" ++ gs "</attachment>\n"
  ∧ attachmentEntries relPath [] summarize = [(1, [])]
  ∧ (splitNl (replCRNL [])).length = 1 :=
  ⟨BuildAttachment_empty repoRoot relPath summarize,
   attachmentEntries_empty relPath summarize, rfl⟩

/-- Claim C4, counterexample: a raw text containing two fenced code
blocks does not fall back to the whole trimmed text with a warning — the
extractor returns the first block's contents with success. -/
theorem extract_two_blocks_cex :
    ExtractOneTextCodeBlock (gs "```text\nA\n```\n```text\nB\n```")
      = (gs "A", true)
  ∧ ExtractOneTextCodeBlock (gs "```text\nA\n```\n```text\nB\n```")
      ≠ (goTrimSpace (gs "```text\nA\n```\n```text\nB\n```"), false) := by
  refine ⟨by decide, by decide⟩

/-- Claim C4, amended: extraction falls back to the entire trimmed raw
text with a non-fatal format warning exactly when the fenced-block
pattern finds no match (in particular, when the text contains no fenced
block); whenever at least one fenced block is found, extraction returns
the leftmost matched block's trimmed inner contents with success — it
does not detect or reject the presence of additional blocks. -/
theorem extract_fallback_amended :
    (∀ s : GoStr, reTextBlockFind (goTrimSpace s) true = none →
      ExtractOneTextCodeBlock s = (goTrimSpace s, false))
  ∧ (∀ s g : GoStr, reTextBlockFind (goTrimSpace s) true = some g →
      ExtractOneTextCodeBlock s = (goTrimSpace g, true))
  ∧ ExtractOneTextCodeBlock (gs "```text\nfeat: add X\n```")
      = (gs "feat: add X", true)
  ∧ ExtractOneTextCodeBlock (gs "no code fence here")
      = (gs "no code fence here", false) := by
  refine ⟨?_, ?_, by decide, by decide⟩
  · intro s h
    simp [ExtractOneTextCodeBlock, h]
  · intro s g h
    simp [ExtractOneTextCodeBlock, h]

/-- Claim C4, amended, witness at concrete inputs. -/
theorem extract_fallback_amended_witness :
    ExtractOneTextCodeBlock (gs "prose only")
      = (goTrimSpace (gs "prose only"), false)
  ∧ ExtractOneTextCodeBlock (gs "```\nx\n```")
      = (goTrimSpace (gs "x"), true) :=
  ⟨extract_fallback_amended.1 (gs "prose only") (by decide),
   extract_fallback_amended.2.1 (gs "```\nx\n```") (gs "x") (by decide)⟩

/-- Claim C5: a provider stub that fails with the empty-result condition
(an error the loop recognizes as retryable, as the OpenAI adapter's
`"llm: empty choices"` is) on every attempt causes exactly 5 provider
calls and then a fatal error; a stub that fails with any
non-empty-result error on the first attempt causes exactly 1 call and an
immediate fatal error. -/
theorem retry_bound_five_attempts :
    (∀ e : GoStr, retryableErr e = true →
      generationAttempts (fun _ => .error e) = (5, .error e))
  ∧ (∀ (provider : Nat → Except GoStr GoStr) (e : GoStr),
      retryableErr e = false → provider 0 = .error e →
      generationAttempts provider = (1, .error e)) :=
  ⟨fun e h => generationAttempts_retryable e h,
   fun provider e h hp => generationAttempts_fatal provider e h hp⟩

/-- Claim C5, witness: the OpenAI empty-result message is retried to 5
calls; a transport-style error aborts after 1 call. -/
theorem retry_bound_five_attempts_witness :
    generationAttempts (fun _ => .error (gs "llm: empty choices"))
      = (5, .error (gs "llm: empty choices"))
  ∧ generationAttempts (fun _ => .error (gs "connection refused"))
      = (1, .error (gs "connection refused")) :=
  ⟨retry_bound_five_attempts.1 (gs "llm: empty choices") (by decide),
   retry_bound_five_attempts.2 (fun _ => .error (gs "connection refused"))
     (gs "connection refused") (by decide) rfl⟩

/-- Claim C6 (settled against the spec-modelled template renderer, since
the template-aware assembler is missing from the sources): a supplied
(non-empty) override template completely replaces the built-in system
instruction and is rendered by substituting the placeholders
RepositoryName and BranchName, with all other literal text passing
through unchanged; with no override the built-in text is used. -/
theorem override_template_system_prompt (d : DataT) :
    (d.systemPromptTemplate = [] →
      BuildVSCodeMessagesTmpl d
        = [⟨0, [⟨1, systemPromptText⟩]⟩, ⟨1, [⟨1, buildUserText d.toData⟩]⟩])
  ∧ (d.systemPromptTemplate ≠ [] →
      BuildVSCodeMessagesTmpl d
        = [⟨0, [⟨1, renderPromptTemplate d.repositoryName d.branchName
                    d.systemPromptTemplate⟩]⟩,
           ⟨1, [⟨1, buildUserText d.toData⟩]⟩])
  ∧ (∀ (rn bn s : GoStr), lbrace ∉ s → renderPromptTemplate rn bn s = s)
  ∧ renderPromptTemplate (gs "my-repo") (gs "dev")
      (gs "Hello \x7b\x7b.RepositoryName\x7d\x7d on branch \x7b\x7b.BranchName\x7d\x7d")
      = gs "Hello my-repo on branch dev" := by
  refine ⟨?_, ?_, fun rn bn s h => renderPromptTemplate_no_brace rn bn s h, by decide⟩
  · intro h
    simp [BuildVSCodeMessagesTmpl, h]
  · intro h
    simp [BuildVSCodeMessagesTmpl, h]

/-- Claim C6, witness at a concrete prompt data value. -/
theorem override_template_system_prompt_witness :
    BuildVSCodeMessagesTmpl ⟨⟨gs "r", gs "b", [], [], [], [], false⟩, []⟩
      = [⟨0, [⟨1, systemPromptText⟩]⟩,
         ⟨1, [⟨1, buildUserText ⟨gs "r", gs "b", [], [], [], [], false⟩⟩]⟩]
  ∧ BuildVSCodeMessagesTmpl ⟨⟨gs "r", gs "b", [], [], [], [], false⟩, gs "T"⟩
      = [⟨0, [⟨1, renderPromptTemplate (gs "r") (gs "b") (gs "T")⟩]⟩,
         ⟨1, [⟨1, buildUserText ⟨gs "r", gs "b", [], [], [], [], false⟩⟩]⟩]
  ∧ renderPromptTemplate (gs "r") (gs "b") (gs "no placeholder") = gs "no placeholder" :=
  ⟨(override_template_system_prompt ⟨⟨gs "r", gs "b", [], [], [], [], false⟩, []⟩).1 rfl,
   (override_template_system_prompt ⟨⟨gs "r", gs "b", [], [], [], [], false⟩, gs "T"⟩).2.1
     (by decide),
   (override_template_system_prompt ⟨⟨gs "r", gs "b", [], [], [], [], false⟩, []⟩).2.2.1
     (gs "r") (gs "b") (gs "no placeholder") (by decide)⟩

/-- Claim C7: with the conventional-commit flag set, every generation
attempt sends a copy of the base messages with exactly one synthetic
User-role (tag 1) reminder appended, and after any number of
regenerations the stored base message list is unchanged — every attempt
is built from the same base messages. -/
theorem conventional_reminder_frame (conventional : Bool)
    (base : List VSCodeMessage) (n : Nat) :
    (regenTrace conventional base n).2 = base
  ∧ (regenTrace conventional base n).1
      = List.replicate n (currentMsgsFor conventional base)
  ∧ currentMsgsFor true base = base ++ [conventionalReminderMsg]
  ∧ currentMsgsFor false base = base
  ∧ conventionalReminderMsg.role = 1 := by
  have key : ∀ m : Nat, (regenTrace conventional base m).2 = base
      ∧ (regenTrace conventional base m).1
          = List.replicate m (currentMsgsFor conventional base) := by
    intro m
    induction m with
    | zero => exact ⟨rfl, rfl⟩
    | succ k ih =>
      refine ⟨?_, ?_⟩
      · simpa [regenTrace, regenStep] using ih.1
      · simp [regenTrace, regenStep, ih.2, List.replicate_succ]
  exact ⟨(key n).1, (key n).2, rfl, rfl, rfl⟩

/-- Claim C8: the prompt assembler is deterministic — it is a pure
function of the prompt data, so two calls on identical data yield
byte-identical system and user texts. -/
theorem assembler_deterministic (d₁ d₂ : Data) (h : d₁ = d₂) :
    BuildVSCodeMessages d₁ = BuildVSCodeMessages d₂
  ∧ buildUserText d₁ = buildUserText d₂ := by
  subst h
  exact ⟨rfl, rfl⟩

/-- Claim C8, witness at a concrete prompt data value. -/
theorem assembler_deterministic_witness :
    BuildVSCodeMessages ⟨gs "r", gs "b", [gs "c"], [], [], [], false⟩
      = BuildVSCodeMessages ⟨gs "r", gs "b", [gs "c"], [], [], [], false⟩
  ∧ buildUserText ⟨gs "r", gs "b", [gs "c"], [], [], [], false⟩
      = buildUserText ⟨gs "r", gs "b", [gs "c"], [], [], [], false⟩ :=
  assembler_deterministic _ _ rfl

/-- Claim C9: with `summarize = false` the attachment's numbered entries
are exactly one entry per input line — 1-indexed, in increasing
line-number order — and the entry for line `i` is input line `i` after
trailing-carriage-return stripping; the number of entries equals the
total line count. -/
theorem no_summarize_entries_exact (relPath content : GoStr) :
    attachmentEntries relPath content false
      = (List.range' 1 (splitNl content).length).zip
          ((splitNl content).map trimCR)
  ∧ (attachmentEntries relPath content false).length
      = (splitNl (replCRNL content)).length := by
  refine ⟨attachmentEntries_noSummarize_eq relPath content, ?_⟩
  rw [attachmentEntries_noSummarize_eq relPath content, length_splitNl_replCRNL]
  simp

/-- Claim C10: the assembled user message is the text before the
user-commits section, the section, and the text after it, where the
section is entirely absent (no wrapper tags emitted) when the
recent-user-commits list is empty and otherwise contains exactly one
`"- "`-prefixed line per entry, in input order. -/
theorem user_commits_section_presence (d : Data) :
    buildUserText d
      = userTextBefore d ++ userCommitsSection d.recentUserCommits ++ userTextAfter d
  ∧ (d.recentUserCommits = [] → userCommitsSection d.recentUserCommits = [])
  ∧ (d.recentUserCommits ≠ [] →
      userCommitsSection d.recentUserCommits
        = gs "<user-commits>\n"
          ++ gs "# RECENT USER COMMITS (For reference only, do not copy!):\n"
          ++ (d.recentUserCommits.map fun c => gs "- " ++ c ++ gs "\n").flatten
          ++ gs "\n</user-commits>\n") := by
  refine ⟨buildUserText_decomp d, ?_, ?_⟩
  · intro h
    simp [userCommitsSection, h]
  · intro h
    have hlen : d.recentUserCommits.length > 0 := List.length_pos.mpr h
    simp [userCommitsSection, hlen]

/-- Claim C10, witness at concrete prompt data values. -/
theorem user_commits_section_presence_witness :
    buildUserText ⟨gs "r", gs "b", [gs "c1", gs "c2"], [], [], [], false⟩
      = userTextBefore ⟨gs "r", gs "b", [gs "c1", gs "c2"], [], [], [], false⟩
        ++ userCommitsSection [gs "c1", gs "c2"]
        ++ userTextAfter ⟨gs "r", gs "b", [gs "c1", gs "c2"], [], [], [], false⟩
  ∧ userCommitsSection [] = []
  ∧ userCommitsSection [gs "c1", gs "c2"]
      = gs "<user-commits>\n"
        ++ gs "# RECENT USER COMMITS (For reference only, do not copy!):\n"
        ++ ([gs "c1", gs "c2"].map fun c => gs "- " ++ c ++ gs "\n").flatten
        ++ gs "\n</user-commits>\n" :=
  ⟨(user_commits_section_presence ⟨gs "r", gs "b", [gs "c1", gs "c2"], [], [], [], false⟩).1,
   (user_commits_section_presence ⟨gs "r", gs "b", [], [], [], [], false⟩).2.1 rfl,
   (user_commits_section_presence ⟨gs "r", gs "b", [gs "c1", gs "c2"], [], [], [], false⟩).2.2
     (by decide)⟩
